import Mathlib

/-!
# Verification of the CreateMeasPlots spreadsheet-scanning core

Shallow embedding of the data-scanning logic of `snyggaKurvor.py` and
`go_to_the_bar.py`:

* `find_first_numeric_row` (snyggaKurvor.py, lines 33-39),
* `find_start_row` (go_to_the_bar.py, lines 8-25),
* `find_closest_value` (snyggaKurvor.py, lines 20-31),
* the time-column discovery and per-group column extraction inside
  `plot_excel_data` (snyggaKurvor.py, lines 98-116 and 135-138),
* the four-list extraction loop of `create_bar_chart` /
  `create_seaborn_combined_bar_chart` (go_to_the_bar.py, lines 52-61, 213-222).

Modelling decisions, all taken from the source and the behaviour of the
openpyxl library it calls:

* A cell value is one of: empty (`None`), an integer, a float (modelled as a
  rational, i.e. exact arithmetic), a boolean, a text string, or a date.
* `openpyxl` pads each row yielded by `iter_rows` with `None` up to the
  sheet's `max_column`; reading a single column with `min_col = max_col`
  likewise yields `None` for cells beyond the stored width.  Cell lookup in
  the model therefore defaults to the empty value.
* Python's `isinstance(v, (int, float))` is `True` for booleans, because
  `bool` is a subclass of `int`; the numeric test in the model accepts
  booleans accordingly.
* Tuple indexing such as `row[1]` raises `IndexError` when the padded row is
  too short (sheet narrower than the accessed column); this is modelled with
  `Except`.
* `iter_rows(min_row=None)` treats `None` as row 1 (openpyxl substitutes the
  default lower bound), which is how `plot_excel_data` behaves when
  `find_first_numeric_row` returns `None`.
-/

set_option maxRecDepth 8000

/-- A spreadsheet cell value as delivered by `openpyxl`'s `.value`:
`None`, `int`, `float`, `bool`, `str`, or a `datetime` (date-typed cell).
Floats are modelled as rationals. -/
inductive CellValue where
  | vEmpty : CellValue
  | vInt : Int → CellValue
  | vFloat : ℚ → CellValue
  | vBool : Bool → CellValue
  | vStr : String → CellValue
  | vDate : CellValue
deriving DecidableEq

/-- A sheet: the list of its rows, each row the list of stored cell values.
Row and column numbering is 1-based, as in openpyxl. -/
structure Sheet where
  rows : List (List CellValue)
deriving DecidableEq

/-- `ws.max_row`: the number of rows of the sheet. -/
def numRows (s : Sheet) : Nat := s.rows.length

/-- `ws.max_column`: the width openpyxl pads every yielded row to
(at least 1, the width of the widest stored row). -/
def sheetMaxColumn (s : Sheet) : Nat :=
  s.rows.foldl (fun m row => max m row.length) 1

/-- The value of cell `(r, c)` (1-based), `vEmpty` when the cell is not
stored — matching openpyxl's `None` padding. -/
def cellAt (s : Sheet) (r c : Nat) : CellValue :=
  (s.rows.getD (r - 1) []).getD (c - 1) CellValue.vEmpty

/-- `isinstance(v, (int, float))`.  Python's `bool` is a subclass of `int`,
so boolean cells pass this test. -/
def isNumericCell (v : CellValue) : Bool :=
  match v with
  | .vInt _ => true
  | .vFloat _ => true
  | .vBool _ => true
  | _ => false

/-- The row test of `find_first_numeric_row`:
`cell[0] is not None and isinstance(cell[0], (int, float))`. -/
def cellNumericTest (v : CellValue) : Bool :=
  decide (v ≠ CellValue.vEmpty) && isNumericCell v

/-- Loop of `find_first_numeric_row`: walk the rows of one column carrying
the 1-based row index (`enumerate(..., start=1)`). -/
def findFirstAux (col : Nat) : List (List CellValue) → Nat → Option Nat
  | [], _ => none
  | row :: rest, idx =>
    if cellNumericTest (row.getD (col - 1) CellValue.vEmpty) then some idx
    else findFirstAux col rest (idx + 1)

/-- `find_first_numeric_row(ws, column_index)` (snyggaKurvor.py, lines 33-39):
scan `iter_rows(min_col=column_index, max_col=column_index)` from row 1,
return the first row index whose cell is non-`None` and
`isinstance(..., (int, float))`; `None` when no row matches. -/
def find_first_numeric_row (ws : Sheet) (column_index : Nat) : Option Nat :=
  findFirstAux column_index ws.rows 1

/-- Loop of `find_start_row`: rows are the padded tuples of width `w`
(`ws.max_column`); `row[1]` raises `IndexError` when `w < 2`. -/
def findStartRowAux (w : Nat) : List (List CellValue) → Nat → Except String (Option Nat)
  | [], _ => Except.ok none
  | row :: rest, idx =>
    if w < 2 then Except.error "IndexError"
    else if isNumericCell (row.getD 1 CellValue.vEmpty) then Except.ok (some idx)
    else findStartRowAux w rest (idx + 1)

/-- `find_start_row(sheet)` (go_to_the_bar.py, lines 8-25): scan
`iter_rows(min_row=1, max_row=sheet.max_row, values_only=True)` with
`enumerate(..., start=1)` and return the first row whose `row[1]` (column 2)
is `isinstance(..., (int, float))`; `None` if none; `row[1]` raises
`IndexError` when the sheet is only one column wide. -/
def find_start_row (sheet : Sheet) : Except String (Option Nat) :=
  findStartRowAux (sheetMaxColumn sheet) sheet.rows 1

/-- Fold underlying `min(lst, key=lambda x: abs(x - target))`: Python's
`min` keeps the earliest element, replacing only on a strictly smaller key. -/
def closestFold (target : ℚ) (x : ℚ) (xs : List ℚ) : ℚ :=
  xs.foldl (fun best z => if |z - target| < |best - target| then z else best) x

/-- `find_closest_value(lst, target)` (snyggaKurvor.py, lines 20-31):
`min(lst, key=lambda x: abs(x - target))`; Python `min` raises `ValueError`
on an empty sequence, modelled as `none`. -/
def find_closest_value (lst : List ℚ) (target : ℚ) : Option ℚ :=
  match lst with
  | [] => none
  | x :: xs => some (closestFold target x xs)

/-- Group discovery of `plot_excel_data` (snyggaKurvor.py, lines 98-101):
`for col_index, cell in enumerate(ws[4], 1): if cell.value == "Physical time [s]":
time_columns[col_index] = ws.cell(row=4, column=col_index + 1).value`.
`ws[4]` yields the cells of row 4 up to `max_column`; insertion order of the
dict is the left-to-right scan order. -/
def time_columns (ws : Sheet) : List (Nat × CellValue) :=
  (List.range' 1 (sheetMaxColumn ws)).filterMap (fun c =>
    if cellAt ws 4 c = CellValue.vStr "Physical time [s]" then
      some (c, cellAt ws 4 (c + 1))
    else none)

/-- One column read of `plot_excel_data`'s extraction:
`[cell[0].value for cell in ws.iter_rows(min_row=start, max_row=ws.max_row,
min_col=c, max_col=c)]`. -/
def colSlice (ws : Sheet) (c start : Nat) : List CellValue :=
  (List.range' start (numRows ws + 1 - start)).map (fun r => cellAt ws r c)

/-- Per-group extraction of `plot_excel_data` (snyggaKurvor.py, lines
108-115): `first_row = find_first_numeric_row(ws, time_column)` is used as
`min_row` with **no `None` check**; openpyxl treats `min_row=None` as 1,
hence the `getD 1`.  Returns the raw (time column, value column) lists. -/
def plot_group_raw (ws : Sheet) (time_column : Nat) : List CellValue × List CellValue :=
  let start := (find_first_numeric_row ws time_column).getD 1
  (colSlice ws time_column start, colSlice ws (time_column + 1) start)

/-- The ordered sequence of series groups `plot_excel_data` builds: for each
discovered time column, its column index, its label (`column_labels`), and
the raw time/value column contents (`column_times`, `column_data`). -/
def plot_series_groups (ws : Sheet) : List (Nat × CellValue × List CellValue × List CellValue) :=
  (time_columns ws).map (fun p => (p.1, p.2, plot_group_raw ws p.1))

/-- The `None` filter of the plotting stage (snyggaKurvor.py, lines 137-138):
`[z for z in column if z is not None]` keeps exactly the non-empty cells. -/
def nonEmptyVal (z : CellValue) : Bool :=
  decide (z ≠ CellValue.vEmpty)

/-- State of the four accumulator lists of the bar-chart extraction loop,
plus the pending exception (`some "IndexError"`) if a tuple index was out of
range. -/
structure BarState where
  names : List CellValue
  min_value : List CellValue
  mean_value : List CellValue
  max_value : List CellValue
  err : Option String
deriving DecidableEq

/-- The loop body of `create_bar_chart` (go_to_the_bar.py, lines 57-61):
`names.append(row[0]); min_value.append(row[1]); mean_value.append(row[2]);
max_value.append(row[3])` over padded tuples of width `w`; each `row[k]`
with `k ≥ w` raises `IndexError` after the earlier appends of that row
already happened. -/
def barLoopAux (w : Nat) : List (List CellValue) → BarState
  | [] => { names := [], min_value := [], mean_value := [], max_value := [], err := none }
  | row :: rest =>
    if w < 1 then
      { names := [], min_value := [], mean_value := [], max_value := [],
        err := some "IndexError" }
    else if w < 2 then
      { names := [row.getD 0 CellValue.vEmpty], min_value := [], mean_value := [],
        max_value := [], err := some "IndexError" }
    else if w < 3 then
      { names := [row.getD 0 CellValue.vEmpty], min_value := [row.getD 1 CellValue.vEmpty],
        mean_value := [], max_value := [], err := some "IndexError" }
    else if w < 4 then
      { names := [row.getD 0 CellValue.vEmpty], min_value := [row.getD 1 CellValue.vEmpty],
        mean_value := [row.getD 2 CellValue.vEmpty], max_value := [],
        err := some "IndexError" }
    else
      { names := row.getD 0 CellValue.vEmpty :: (barLoopAux w rest).names,
        min_value := row.getD 1 CellValue.vEmpty :: (barLoopAux w rest).min_value,
        mean_value := row.getD 2 CellValue.vEmpty :: (barLoopAux w rest).mean_value,
        max_value := row.getD 3 CellValue.vEmpty :: (barLoopAux w rest).max_value,
        err := (barLoopAux w rest).err }

/-- The whole extraction loop `for row in current_sheet.iter_rows(min_row=2,
values_only=True)` (go_to_the_bar.py, lines 52-61): rows from row 2 on. -/
def barLoop (s : Sheet) : BarState :=
  barLoopAux (sheetMaxColumn s) (s.rows.drop 1)

/-- Per-sheet control flow of `create_bar_chart` (go_to_the_bar.py, lines
46-61): compute `find_start_row`, return early (`.ok none`) when it is
`None` ("No numeric data found in column 2."), otherwise run the extraction
loop. -/
def create_bar_chart_data (s : Sheet) : Except String (Option BarState) :=
  match find_start_row s with
  | Except.error e => Except.error e
  | Except.ok none => Except.ok none
  | Except.ok (some _) => Except.ok (some (barLoop s))

/-! ## Concrete sheets used as counterexamples and witnesses -/

/-- Time column holds `1.0, None, 2.0`; paired value column holds three
numbers: the two columns disagree about where the empty cells sit. -/
def sheetC1 : Sheet :=
  ⟨[[], [], [],
    [CellValue.vStr "Physical time [s]", CellValue.vStr "A"],
    [CellValue.vFloat 1, CellValue.vFloat 10],
    [CellValue.vEmpty, CellValue.vFloat 11],
    [CellValue.vFloat 2, CellValue.vFloat 12]]⟩

/-- Column 2 holds a boolean at row 1 and a float at row 2. -/
def sheetC2 : Sheet :=
  ⟨[[CellValue.vEmpty, CellValue.vBool true],
    [CellValue.vEmpty, CellValue.vFloat 5]]⟩

/-- A single boolean cell. -/
def sheetC3 : Sheet := ⟨[[CellValue.vBool true]]⟩

/-- Column 1 is text, column 2 numeric: the locator finds nothing in
column 1. -/
def sheetC4 : Sheet := ⟨[[CellValue.vStr "a", CellValue.vFloat 7]]⟩

/-- A numeric cell at row 2 of the marker column, above the header row 4. -/
def sheetC5 : Sheet :=
  ⟨[[CellValue.vEmpty],
    [CellValue.vFloat 3],
    [CellValue.vEmpty],
    [CellValue.vStr "Physical time [s]", CellValue.vStr "L"],
    [CellValue.vFloat 0, CellValue.vFloat 20]]⟩

/-- A sheet whose only populated cell is text in A1: `max_column = 1`. -/
def sheetC7 : Sheet := ⟨[[CellValue.vStr "a"]]⟩

/-- A two-column sheet reaching the bar-chart loop (column 2 numeric at
row 2). -/
def sheetC10 : Sheet :=
  ⟨[[CellValue.vStr "h", CellValue.vStr "x"],
    [CellValue.vStr "n", CellValue.vFloat 5]]⟩

/-- Marker at row 4 column 1 with label "L" to its right. -/
def sheetW6 : Sheet :=
  ⟨[[], [], [], [CellValue.vStr "Physical time [s]", CellValue.vStr "L"]]⟩

/-- A sheet with no marker anywhere in row 4. -/
def sheetW8 : Sheet := ⟨[[CellValue.vFloat 1, CellValue.vFloat 2]]⟩

/-- A well-formed group: marker at (4,1), label "A", two clean data rows. -/
def sheetW1 : Sheet :=
  ⟨[[], [], [],
    [CellValue.vStr "Physical time [s]", CellValue.vStr "A"],
    [CellValue.vFloat 1, CellValue.vFloat 10],
    [CellValue.vFloat 2, CellValue.vFloat 11]]⟩

/-- Header rows non-numeric in column 1 up to row 4, data from row 5. -/
def sheetW5 : Sheet :=
  ⟨[[CellValue.vEmpty],
    [CellValue.vEmpty],
    [CellValue.vEmpty],
    [CellValue.vStr "Physical time [s]", CellValue.vStr "L"],
    [CellValue.vFloat 1, CellValue.vFloat 2]]⟩

/-- Text rows then a float at row 2 of column 1. -/
def sheetW2 : Sheet := ⟨[[CellValue.vStr "h"], [CellValue.vFloat 5]]⟩

/-- Two text cells in the only row: `find_start_row` yields `None`. -/
def sheetW4 : Sheet := ⟨[[CellValue.vStr "a", CellValue.vStr "b"]]⟩

/-- A four-column sheet: one header row, one data row. -/
def sheetW10 : Sheet :=
  ⟨[[CellValue.vStr "H1", CellValue.vStr "H2", CellValue.vStr "H3", CellValue.vStr "H4"],
    [CellValue.vStr "n", CellValue.vFloat 1, CellValue.vFloat 2, CellValue.vFloat 3]]⟩

/-! ## Sanity evaluations (concrete, closed) -/

example : find_first_numeric_row sheetC2 2 = some 1 := by decide

example : find_start_row sheetW4 = Except.ok none := rfl

example :
    plot_series_groups sheetW1 =
      [(1, CellValue.vStr "A",
        [CellValue.vFloat 1, CellValue.vFloat 2],
        [CellValue.vFloat 10, CellValue.vFloat 11])] := by decide

/-! ## Counterexample and failing-input theorems -/

/-- C1 counterexample: `plot_excel_data` filters `None` out of the time list
and the value list independently (lines 137-138), so a group whose time
column has an internal empty cell but whose value column does not ends up
with sequences of different lengths — the claimed symmetric exclusion and
`len(time) == len(value)` invariant fail on this sheet. -/
theorem plot_misalignment_cex :
    (1, CellValue.vStr "A",
      [CellValue.vFloat 1, CellValue.vEmpty, CellValue.vFloat 2],
      [CellValue.vFloat 10, CellValue.vFloat 11, CellValue.vFloat 12])
      ∈ plot_series_groups sheetC1 ∧
    ([CellValue.vFloat 1, CellValue.vEmpty, CellValue.vFloat 2].filter nonEmptyVal).length = 2 ∧
    ([CellValue.vFloat 10, CellValue.vFloat 11, CellValue.vFloat 12].filter nonEmptyVal).length = 3 := by
  decide

/-- C2 counterexample: column 2 of `sheetC2` holds a boolean at row 1 and its
first (minimal) int-or-float value at row 2, yet the locator returns row 1,
because `isinstance(True, (int, float))` is `True` in Python — so it does
return a row smaller than the minimal numeric row. -/
theorem locator_bool_before_numeric_cex :
    find_first_numeric_row sheetC2 2 = some 1 ∧
    cellAt sheetC2 1 2 = CellValue.vBool true ∧
    cellAt sheetC2 2 2 = CellValue.vFloat 5 := by decide

/-- C3 counterexample: the locator returns row 1 of `sheetC3` even though the
target cell there holds a boolean — the numeric test does not reject
booleans. -/
theorem locator_accepts_bool_cex :
    find_first_numeric_row sheetC3 1 = some 1 ∧
    cellAt sheetC3 1 1 = CellValue.vBool true := by decide

/-- C4 counterexample: in `plot_excel_data` the locator result is used as
`min_row` with no `None` check (lines 111-115); on `sheetC4`, whose column 1
holds no numeric value, the locator signals NotFound and extraction
nevertheless proceeds from row 1 (openpyxl's `min_row=None` default),
producing data. -/
theorem plot_unchecked_sentinel_cex :
    find_first_numeric_row sheetC4 1 = none ∧
    plot_group_raw sheetC4 1 = ([CellValue.vStr "a"], [CellValue.vFloat 7]) := by decide

/-- C5 counterexample: the per-group scan starts at row 1, not below the
header row 4.  On `sheetC5` the marker sits at (4,1), a numeric value sits
at (2,1), and the located start row is 2 — not a row below the header — so
the extracted raw time column even contains the header cell itself. -/
theorem locator_scans_above_header_cex :
    time_columns sheetC5 = [(1, CellValue.vStr "L")] ∧
    find_first_numeric_row sheetC5 1 = some 2 ∧
    (plot_group_raw sheetC5 1).1 =
      [CellValue.vFloat 3, CellValue.vEmpty,
       CellValue.vStr "Physical time [s]", CellValue.vFloat 0] := by decide

/-- C7 failing input: on a sheet whose only populated cell is text in A1,
`max_column = 1`, every tuple yielded by `iter_rows` has length 1, and
`row[1]` in `find_start_row` raises `IndexError` instead of returning the
`None` sentinel its docstring promises; `find_first_numeric_row`, which
reads the single requested column, returns `None` as specified. -/
theorem find_start_row_indexerror :
    find_start_row sheetC7 = Except.error "IndexError" ∧
    find_first_numeric_row sheetC7 2 = none := ⟨rfl, rfl⟩

/-- C10 counterexample: on a two-column sheet that passes the
`find_start_row` check, the loop's `row[2]` raises `IndexError` after
`names` and `min_value` of that row were already appended, leaving the four
lists at unequal lengths (1, 1, 0, 0). -/
theorem bar_loop_narrow_cex :
    find_start_row sheetC10 = Except.ok (some 2) ∧
    barLoop sheetC10 =
      { names := [CellValue.vStr "n"], min_value := [CellValue.vFloat 5],
        mean_value := [], max_value := [], err := some "IndexError" } ∧
    (barLoop sheetC10).names.length = 1 ∧
    (barLoop sheetC10).max_value.length = 0 := by
  refine ⟨rfl, rfl, rfl, rfl⟩

/-! ## Lemmas about the one-column scan -/

/-- If the first `k` rows fail the numeric test and row `k` (0-based into the
list) passes it, the scan starting with counter `b` returns `b + k`. -/
lemma findFirstAux_eq_some (col : Nat) :
    ∀ (rs : List (List CellValue)) (b k : Nat),
      cellNumericTest ((rs.getD k []).getD (col - 1) CellValue.vEmpty) = true →
      (∀ j, j < k → cellNumericTest ((rs.getD j []).getD (col - 1) CellValue.vEmpty) = false) →
      findFirstAux col rs b = some (b + k) := by
  intro rs
  induction rs with
  | nil =>
    intro b k hk _
    rw [List.getD_nil, List.getD_nil] at hk
    exact absurd hk (by decide)
  | cons row rest ih =>
    intro b k hk hmin
    cases k with
    | zero =>
      rw [List.getD_cons_zero] at hk
      show findFirstAux col (row :: rest) b = some b
      simp only [findFirstAux]
      rw [if_pos hk]
    | succ k =>
      have h0 : cellNumericTest (row.getD (col - 1) CellValue.vEmpty) = false := by
        have := hmin 0 (Nat.succ_pos k)
        rwa [List.getD_cons_zero] at this
      have hk' : cellNumericTest ((rest.getD k []).getD (col - 1) CellValue.vEmpty) = true := by
        rwa [List.getD_cons_succ] at hk
      have hmin' : ∀ j, j < k →
          cellNumericTest ((rest.getD j []).getD (col - 1) CellValue.vEmpty) = false := by
        intro j hj
        have := hmin (j + 1) (Nat.succ_lt_succ hj)
        rwa [List.getD_cons_succ] at this
      calc findFirstAux col (row :: rest) b
          = findFirstAux col rest (b + 1) := by
            simp only [findFirstAux]
            rw [if_neg (by rw [h0]; exact Bool.false_ne_true)]
        _ = some ((b + 1) + k) := ih (b + 1) k hk' hmin'
        _ = some (b + (k + 1)) := by congr 1; omega

/-- A successful scan points at a row whose cell passes the numeric test. -/
lemma findFirstAux_sound (col : Nat) :
    ∀ (rs : List (List CellValue)) (b r : Nat),
      findFirstAux col rs b = some r →
      b ≤ r ∧ cellNumericTest ((rs.getD (r - b) []).getD (col - 1) CellValue.vEmpty) = true := by
  intro rs
  induction rs with
  | nil => intro b r h; simp [findFirstAux] at h
  | cons row rest ih =>
    intro b r h
    by_cases hc : cellNumericTest (row.getD (col - 1) CellValue.vEmpty) = true
    · rw [findFirstAux, if_pos hc] at h
      have hbr : b = r := Option.some.inj h
      subst hbr
      refine ⟨Nat.le_refl b, ?_⟩
      rw [Nat.sub_self, List.getD_cons_zero]
      exact hc
    · rw [findFirstAux, if_neg hc] at h
      obtain ⟨hbr, htest⟩ := ih (b + 1) r h
      refine ⟨by omega, ?_⟩
      have hsub : r - b = (r - (b + 1)) + 1 := by omega
      rw [hsub, List.getD_cons_succ]
      exact htest

/-- The content of claim C2, stated against the code's own numeric test:
if row `r` (1-based) is the minimal row whose cell in column `c` passes the
test, the scan from row 1 returns exactly `r`. -/
lemma first_numeric_minimal_aux (ws : Sheet) (c r : Nat)
    (h1 : 1 ≤ r)
    (h2 : cellNumericTest (cellAt ws r c) = true)
    (h3 : ∀ r', 1 ≤ r' → r' < r → cellNumericTest (cellAt ws r' c) = false) :
    find_first_numeric_row ws c = some r := by
  have hk : cellNumericTest ((ws.rows.getD (r - 1) []).getD (c - 1) CellValue.vEmpty) = true := h2
  have hmin : ∀ j, j < r - 1 →
      cellNumericTest ((ws.rows.getD j []).getD (c - 1) CellValue.vEmpty) = false := by
    intro j hj
    have := h3 (j + 1) (by omega) (by omega)
    exact this
  have := findFirstAux_eq_some c ws.rows 1 (r - 1) hk hmin
  rw [show find_first_numeric_row ws c = findFirstAux c ws.rows 1 from rfl, this]
  congr 1
  omega

/-- C2 (amended): with the code's numeric test — `isinstance(v, (int, float))`,
which also accepts booleans since Python `bool` subclasses `int` — if row `r`
is the minimal row whose cell in column `c` passes the test, the locator
scans ascending from row 1 and returns exactly `r`. -/
theorem find_first_numeric_row_minimal (ws : Sheet) (c r : Nat)
    (h1 : 1 ≤ r)
    (h2 : cellNumericTest (cellAt ws r c) = true)
    (h3 : ∀ r', 1 ≤ r' → r' < r → cellNumericTest (cellAt ws r' c) = false) :
    find_first_numeric_row ws c = some r :=
  first_numeric_minimal_aux ws c r h1 h2 h3

/-- Witness for `find_first_numeric_row_minimal`: on `sheetW2` (text at row 1,
float at row 2 of column 1) the locator returns exactly row 2. -/
theorem find_first_numeric_row_minimal_witness :
    find_first_numeric_row sheetW2 1 = some 2 :=
  find_first_numeric_row_minimal sheetW2 1 2 (by decide) (by decide)
    (by
      intro r' ha hb
      have hr : r' = 1 := by omega
      subst hr
      decide)

/-- C3 (amended): whenever the locator returns a row, the target cell of that
row is an integer, a float, or a boolean — never text, a date, or empty.
(The claim's "rejects every boolean" fails: see `locator_accepts_bool_cex`.) -/
theorem find_first_numeric_row_sound (ws : Sheet) (c r : Nat)
    (h : find_first_numeric_row ws c = some r) :
    (∃ i, cellAt ws r c = CellValue.vInt i) ∨
    (∃ q, cellAt ws r c = CellValue.vFloat q) ∨
    (∃ b, cellAt ws r c = CellValue.vBool b) := by
  obtain ⟨hbr, htest⟩ := findFirstAux_sound c ws.rows 1 r h
  have hcell : cellAt ws r c = (ws.rows.getD (r - 1) []).getD (c - 1) CellValue.vEmpty := rfl
  rw [hcell]
  cases hv : (ws.rows.getD (r - 1) []).getD (c - 1) CellValue.vEmpty with
  | vEmpty => rw [hv] at htest; exact absurd htest (by decide)
  | vInt i => exact Or.inl ⟨i, rfl⟩
  | vFloat q => exact Or.inr (Or.inl ⟨q, rfl⟩)
  | vBool b => exact Or.inr (Or.inr ⟨b, rfl⟩)
  | vStr t =>
    rw [hv] at htest
    exact absurd htest (by simp [cellNumericTest, isNumericCell])
  | vDate => rw [hv] at htest; exact absurd htest (by decide)

/-- Witness for `find_first_numeric_row_sound` at `sheetW2`, column 1,
returned row 2. -/
theorem find_first_numeric_row_sound_witness :
    (∃ i, cellAt sheetW2 2 1 = CellValue.vInt i) ∨
    (∃ q, cellAt sheetW2 2 1 = CellValue.vFloat q) ∨
    (∃ b, cellAt sheetW2 2 1 = CellValue.vBool b) :=
  find_first_numeric_row_sound sheetW2 1 2 (by decide)

/-- C5 (amended): the group's start row is located independently per group by
scanning the marker's own column — but from row 1 of the sheet, not from
below the header.  When the marker column has no test-passing cell at or
above header row 4 and `r` is the minimal test-passing row, the located row
is exactly `r`, necessarily below the header, and the group's two columns
are extracted from `r` on. -/
theorem per_group_start_row_spec (ws : Sheet) (c r : Nat)
    (h4 : ∀ r' ∈ List.range' 1 4, cellNumericTest (cellAt ws r' c) = false)
    (h2 : cellNumericTest (cellAt ws r c) = true)
    (h3 : ∀ r', 4 < r' → r' < r → cellNumericTest (cellAt ws r' c) = false) :
    4 < r ∧ find_first_numeric_row ws c = some r ∧
    plot_group_raw ws c = (colSlice ws c r, colSlice ws (c + 1) r) := by
  have h4' : ∀ r', 1 ≤ r' → r' ≤ 4 → cellNumericTest (cellAt ws r' c) = false := by
    intro r' ha hb
    exact h4 r' (by rw [List.mem_range'_1]; omega)
  have hr4 : 4 < r := by
    by_contra hle
    push_neg at hle
    rcases Nat.eq_zero_or_pos r with h0 | hpos
    · subst h0
      have hone : cellNumericTest (cellAt ws 1 c) = true := h2
      rw [h4' 1 (by omega) (by omega)] at hone
      exact Bool.false_ne_true hone
    · rw [h4' r hpos hle] at h2
      exact Bool.false_ne_true h2
  have hmin : ∀ r', 1 ≤ r' → r' < r → cellNumericTest (cellAt ws r' c) = false := by
    intro r' ha hb
    by_cases hcase : r' ≤ 4
    · exact h4' r' ha hcase
    · exact h3 r' (by omega) hb
  have hfind := first_numeric_minimal_aux ws c r (by omega) h2 hmin
  refine ⟨hr4, hfind, ?_⟩
  simp [plot_group_raw, hfind]

/-- Witness for `per_group_start_row_spec`: on `sheetW5` the marker column 1
has nothing numeric up to row 4 and its first numeric cell at row 5. -/
theorem per_group_start_row_spec_witness :
    4 < 5 ∧ find_first_numeric_row sheetW5 1 = some 5 ∧
    plot_group_raw sheetW5 1 = (colSlice sheetW5 1 5, colSlice sheetW5 2 5) :=
  per_group_start_row_spec sheetW5 1 5 (by decide) (by decide)
    (by intro r' ha hb; omega)

/-! ## The closest-value search -/

/-- The fold of `min(lst, key=lambda x: abs(x - target))` stays inside the
scanned prefix and minimises the key over it. -/
lemma closestFold_spec (target : ℚ) (xs : List ℚ) :
    ∀ x : ℚ, closestFold target x xs ∈ x :: xs ∧
      ∀ y ∈ x :: xs, |closestFold target x xs - target| ≤ |y - target| := by
  induction xs with
  | nil =>
    intro x
    constructor
    · simp [closestFold]
    · intro y hy
      rw [List.mem_singleton] at hy
      subst hy
      simp [closestFold]
  | cons z xs ih =>
    intro x
    have hstep : closestFold target x (z :: xs) =
        closestFold target (if |z - target| < |x - target| then z else x) xs := rfl
    by_cases hc : |z - target| < |x - target|
    · rw [if_pos hc] at hstep
      obtain ⟨hmem, hmin⟩ := ih z
      rw [hstep]
      refine ⟨List.mem_cons_of_mem _ hmem, ?_⟩
      intro y hy
      rcases List.mem_cons.1 hy with hyx | hyz
      · subst hyx
        exact le_trans (hmin z (List.mem_cons_self _ _)) (le_of_lt hc)
      · exact hmin y hyz
    · rw [if_neg hc] at hstep
      obtain ⟨hmem, hmin⟩ := ih x
      rw [hstep]
      constructor
      · rcases List.mem_cons.1 hmem with hx | hxs
        · rw [hx]
          exact List.mem_cons_self _ _
        · exact List.mem_cons_of_mem _ (List.mem_cons_of_mem _ hxs)
      · intro y hy
        rcases List.mem_cons.1 hy with hyx | hy2
        · subst hyx
          exact hmin y (List.mem_cons_self _ _)
        · rcases List.mem_cons.1 hy2 with hyz | hyxs
          · subst hyz
            exact le_trans (hmin x (List.mem_cons_self _ _)) (not_lt.1 hc)
          · exact hmin y (List.mem_cons_of_mem _ hyxs)

/-- C9: on a non-empty list `find_closest_value` returns an element of the
list whose distance to the target is minimal over the whole list, and on the
empty list it signals failure (Python `min` raises `ValueError`). -/
theorem find_closest_value_spec (lst : List ℚ) (target : ℚ) (h : lst ≠ []) :
    (∃ r, find_closest_value lst target = some r ∧ r ∈ lst ∧
      ∀ y ∈ lst, |r - target| ≤ |y - target|) ∧
    find_closest_value ([] : List ℚ) target = none := by
  refine ⟨?_, rfl⟩
  cases lst with
  | nil => exact absurd rfl h
  | cons x xs =>
    obtain ⟨hmem, hmin⟩ := closestFold_spec target xs x
    exact ⟨closestFold target x xs, rfl, hmem, hmin⟩

/-- Witness for `find_closest_value_spec` on `[3, 7, 5]` with target `6`. -/
theorem find_closest_value_spec_witness :
    (∃ r, find_closest_value [3, 7, 5] 6 = some r ∧ r ∈ ([3, 7, 5] : List ℚ) ∧
      ∀ y ∈ ([3, 7, 5] : List ℚ), |r - 6| ≤ |y - 6|) ∧
    find_closest_value ([] : List ℚ) 6 = none :=
  find_closest_value_spec [3, 7, 5] 6 (List.cons_ne_nil 3 [7, 5])

/-! ## The sentinel check of the bar-chart callers -/

/-- C4 (amended, checking side): `create_bar_chart` (and identically
`create_seaborn_combined_bar_chart`) tests `if start_row is None` and
returns before building the four lists, so a sheet on which the locator
signals NotFound is never extracted.  (`plot_excel_data` performs no such
check: see `plot_unchecked_sentinel_cex`.) -/
theorem bar_chart_checks_sentinel (s : Sheet)
    (h : find_start_row s = Except.ok none) :
    create_bar_chart_data s = Except.ok none := by
  simp [create_bar_chart_data, h]

/-- Witness for `bar_chart_checks_sentinel`: `sheetW4` has text in both
cells of its single row, so the locator yields the sentinel and the caller
skips extraction. -/
theorem bar_chart_checks_sentinel_witness :
    create_bar_chart_data sheetW4 = Except.ok none :=
  bar_chart_checks_sentinel sheetW4 rfl

/-! ## Group discovery -/

/-- `List.range' s n` with unit step is strictly increasing. -/
lemma pairwise_lt_range_one : ∀ (n s : Nat), List.Pairwise (· < ·) (List.range' s n) := by
  intro n
  induction n with
  | zero => intro s; simp
  | succ n ih =>
    intro s
    show List.Pairwise (· < ·) (s :: List.range' (s + 1) n)
    refine List.Pairwise.cons ?_ (ih (s + 1))
    intro b hb
    rw [List.mem_range'_1] at hb
    omega

/-- A `filterMap` whose produced pairs carry their source index, projected to
that index, is a sublist of the scanned index list. -/
lemma filterMap_fst_sublist (g : Nat → Option (Nat × CellValue))
    (hg : ∀ a p, g a = some p → p.1 = a) :
    ∀ l : List Nat, ((l.filterMap g).map Prod.fst).Sublist l := by
  intro l
  induction l with
  | nil => simp
  | cons a l ih =>
    rw [List.filterMap_cons]
    cases hga : g a with
    | none => exact ih.cons a
    | some p =>
      rw [List.map_cons, hg a p hga]
      exact ih.cons₂ a

/-- C6: group discovery scans header row 4 left to right over the cells
`ws[4]` yields; a pair `(c, l)` is recorded exactly when the cell at
`(4, c)` equals the marker text, with the label `l` read from `(4, c + 1)`;
the recorded columns are strictly increasing, and the extractor produces
exactly one group per recorded marker, in the same left-to-right order. -/
theorem discover_groups_spec (ws : Sheet) (c : Nat) (l : CellValue) :
    ((c, l) ∈ time_columns ws ↔
      1 ≤ c ∧ c ≤ sheetMaxColumn ws ∧
      cellAt ws 4 c = CellValue.vStr "Physical time [s]" ∧
      l = cellAt ws 4 (c + 1)) ∧
    List.Pairwise (· < ·) ((time_columns ws).map Prod.fst) ∧
    (plot_series_groups ws).map (fun g => (g.1, g.2.1)) = time_columns ws := by
  refine ⟨?_, ?_, ?_⟩
  · constructor
    · intro hmem
      rw [time_columns, List.mem_filterMap] at hmem
      obtain ⟨a, ha, hf⟩ := hmem
      rw [List.mem_range'_1] at ha
      by_cases hc : cellAt ws 4 a = CellValue.vStr "Physical time [s]"
      · rw [if_pos hc] at hf
        have hpair := Option.some.inj hf
        have hac : a = c := congrArg Prod.fst hpair
        have hlab : cellAt ws 4 (a + 1) = l := congrArg Prod.snd hpair
        subst hac
        exact ⟨ha.1, by omega, hc, hlab.symm⟩
      · rw [if_neg hc] at hf
        exact absurd hf (Option.noConfusion)
    · rintro ⟨h1, h2, h3, h4⟩
      rw [time_columns, List.mem_filterMap]
      refine ⟨c, ?_, ?_⟩
      · rw [List.mem_range'_1]
        exact ⟨h1, by omega⟩
      · rw [if_pos h3, h4]
  · refine List.Pairwise.sublist ?_ (pairwise_lt_range_one (sheetMaxColumn ws) 1)
    rw [time_columns]
    refine filterMap_fst_sublist _ ?_ _
    intro a p hp
    by_cases hc : cellAt ws 4 a = CellValue.vStr "Physical time [s]"
    · rw [if_pos hc] at hp
      exact (congrArg Prod.fst (Option.some.inj hp)).symm
    · rw [if_neg hc] at hp
      exact absurd hp (Option.noConfusion)
  · rw [plot_series_groups, List.map_map]
    exact List.map_id'' (fun _ => rfl) _

/-- Witness for `discover_groups_spec`: on `sheetW6` the marker sits at
`(4, 1)` with label `"L"` to its right, and discovery records exactly it. -/
theorem discover_groups_spec_witness : (1, CellValue.vStr "L") ∈ time_columns sheetW6 :=
  ((discover_groups_spec sheetW6 1 (CellValue.vStr "L")).1).mpr
    ⟨by decide, by decide, by decide, by decide⟩

/-- C8: when no cell of header row 4 equals the marker text, the extractor
returns the empty sequence of groups (and, being a total function of the
sheet, raises nothing). -/
theorem no_marker_empty_groups (ws : Sheet)
    (h : ∀ c ∈ List.range' 1 (sheetMaxColumn ws),
      cellAt ws 4 c ≠ CellValue.vStr "Physical time [s]") :
    plot_series_groups ws = [] := by
  have htc : time_columns ws = [] := by
    rw [time_columns, List.filterMap_eq_nil_iff]
    intro a ha
    rw [if_neg (h a ha)]
  rw [plot_series_groups, htc]
  rfl

/-- Witness for `no_marker_empty_groups`: `sheetW8` has no row 4 at all, so
every header cell reads empty and no group is produced. -/
theorem no_marker_empty_groups_witness : plot_series_groups sheetW8 = [] :=
  no_marker_empty_groups sheetW8 (by decide)

/-! ## Alignment of the filtered time/value sequences -/

/-- Raw time and value columns of a group always have the same length: both
are read from the same start row to the sheet's last row. -/
lemma plot_raw_lengths (ws : Sheet) (c : Nat) :
    (plot_group_raw ws c).1.length = (plot_group_raw ws c).2.length := by
  simp [plot_group_raw, colSlice]

/-- A group of `plot_series_groups` carries exactly the raw columns of
`plot_group_raw` at its own column. -/
lemma mem_groups_raw (ws : Sheet) {c : Nat} {lab : CellValue} {ts vs : List CellValue}
    (h : (c, lab, ts, vs) ∈ plot_series_groups ws) :
    ts = (plot_group_raw ws c).1 ∧ vs = (plot_group_raw ws c).2 := by
  rw [plot_series_groups, List.mem_map] at h
  obtain ⟨p, _, hp⟩ := h
  have hc : p.1 = c := congrArg (fun q => q.1) hp
  have ht : (plot_group_raw ws p.1).1 = ts := congrArg (fun q => q.2.2.1) hp
  have hv : (plot_group_raw ws p.1).2 = vs := congrArg (fun q => q.2.2.2) hp
  rw [hc] at ht hv
  exact ⟨ht.symm, hv.symm⟩

/-- Filtering two equally long lists independently preserves length equality
and index correspondence exactly when emptiness is symmetric position by
position. -/
lemma filter_aligned :
    ∀ xs ys : List CellValue, xs.length = ys.length →
      (∀ p ∈ xs.zip ys, ((p : CellValue × CellValue).1 = CellValue.vEmpty ↔
        p.2 = CellValue.vEmpty)) →
      (xs.filter nonEmptyVal).length = (ys.filter nonEmptyVal).length ∧
      (xs.filter nonEmptyVal).zip (ys.filter nonEmptyVal) =
        (xs.zip ys).filter (fun p => nonEmptyVal p.1 && nonEmptyVal p.2) := by
  intro xs
  induction xs with
  | nil =>
    intro ys hlen _
    cases ys with
    | nil => exact ⟨rfl, rfl⟩
    | cons y ys => exact absurd hlen (by simp)
  | cons x xs ih =>
    intro ys hlen hp
    cases ys with
    | nil => exact absurd hlen (by simp)
    | cons y ys =>
      have hxy : x = CellValue.vEmpty ↔ y = CellValue.vEmpty := by
        refine hp (x, y) ?_
        rw [List.zip_cons_cons]
        exact List.mem_cons_self _ _
      have hrest : ∀ p ∈ xs.zip ys,
          ((p : CellValue × CellValue).1 = CellValue.vEmpty ↔ p.2 = CellValue.vEmpty) := by
        intro p hmem
        refine hp p ?_
        rw [List.zip_cons_cons]
        exact List.mem_cons_of_mem _ hmem
      obtain ⟨ihl, ihz⟩ := ih ys (by simpa using hlen) hrest
      by_cases hx : x = CellValue.vEmpty
      · have hy : y = CellValue.vEmpty := hxy.mp hx
        subst hx
        subst hy
        have h1 : List.filter nonEmptyVal (CellValue.vEmpty :: xs) =
            List.filter nonEmptyVal xs := by
          rw [List.filter_cons, if_neg (by decide)]
        have h2 : List.filter nonEmptyVal (CellValue.vEmpty :: ys) =
            List.filter nonEmptyVal ys := by
          rw [List.filter_cons, if_neg (by decide)]
        have h3 : List.filter (fun p => nonEmptyVal p.1 && nonEmptyVal p.2)
              ((CellValue.vEmpty :: xs).zip (CellValue.vEmpty :: ys)) =
            List.filter (fun p => nonEmptyVal p.1 && nonEmptyVal p.2) (xs.zip ys) := by
          rw [List.zip_cons_cons, List.filter_cons, if_neg (by decide)]
        rw [h1, h2, h3]
        exact ⟨ihl, ihz⟩
      · have hy : ¬ y = CellValue.vEmpty := fun hh => hx (hxy.mpr hh)
        have hfx : nonEmptyVal x = true := decide_eq_true hx
        have hfy : nonEmptyVal y = true := decide_eq_true hy
        have h1 : List.filter nonEmptyVal (x :: xs) = x :: List.filter nonEmptyVal xs := by
          rw [List.filter_cons, if_pos hfx]
        have h2 : List.filter nonEmptyVal (y :: ys) = y :: List.filter nonEmptyVal ys := by
          rw [List.filter_cons, if_pos hfy]
        have h3 : List.filter (fun p => nonEmptyVal p.1 && nonEmptyVal p.2)
              ((x :: xs).zip (y :: ys)) =
            (x, y) :: List.filter (fun p => nonEmptyVal p.1 && nonEmptyVal p.2) (xs.zip ys) := by
          rw [List.zip_cons_cons, List.filter_cons,
            if_pos (show (nonEmptyVal x && nonEmptyVal y) = true by
              rw [hfx, hfy]; exact Bool.and_self true)]
        refine ⟨?_, ?_⟩
        · rw [h1, h2, List.length_cons, List.length_cons]
          omega
        · rw [h1, h2, h3, List.zip_cons_cons]
          exact congrArg (List.cons (x, y)) ihz

/-- C1 (amended): the plotting stage filters `None` out of the time list and
the value list independently; when emptiness is symmetric — every row of the
extracted range has an empty time cell exactly when its value cell is empty
— the filtered sequences have equal length and identical index
correspondence (their zip is the zip of the raw columns restricted to the
rows kept).  Without that symmetry the lengths can differ:
`plot_misalignment_cex`. -/
theorem plot_group_alignment (ws : Sheet) (c : Nat) (lab : CellValue)
    (ts vs : List CellValue)
    (hmem : (c, lab, ts, vs) ∈ plot_series_groups ws)
    (hsym : ∀ p ∈ ts.zip vs, ((p : CellValue × CellValue).1 = CellValue.vEmpty ↔
      p.2 = CellValue.vEmpty)) :
    (ts.filter nonEmptyVal).length = (vs.filter nonEmptyVal).length ∧
    (ts.filter nonEmptyVal).zip (vs.filter nonEmptyVal) =
      (ts.zip vs).filter (fun p => nonEmptyVal p.1 && nonEmptyVal p.2) := by
  obtain ⟨ht, hv⟩ := mem_groups_raw ws hmem
  have hlen : ts.length = vs.length := by
    rw [ht, hv]
    exact plot_raw_lengths ws c
  exact filter_aligned ts vs hlen hsym

/-- Witness for `plot_group_alignment`: the single clean group of `sheetW1`. -/
theorem plot_group_alignment_witness :
    (([CellValue.vFloat 1, CellValue.vFloat 2].filter nonEmptyVal).length =
      ([CellValue.vFloat 10, CellValue.vFloat 11].filter nonEmptyVal).length) ∧
    ([CellValue.vFloat 1, CellValue.vFloat 2].filter nonEmptyVal).zip
        ([CellValue.vFloat 10, CellValue.vFloat 11].filter nonEmptyVal) =
      ([CellValue.vFloat 1, CellValue.vFloat 2].zip
        [CellValue.vFloat 10, CellValue.vFloat 11]).filter
        (fun p => nonEmptyVal p.1 && nonEmptyVal p.2) :=
  plot_group_alignment sheetW1 1 (CellValue.vStr "A")
    [CellValue.vFloat 1, CellValue.vFloat 2]
    [CellValue.vFloat 10, CellValue.vFloat 11]
    (by decide) (by decide)

/-! ## The bar-chart extraction loop on wide-enough sheets -/

/-- `getD` under `map` at an in-range index. -/
lemma getD_map_lt {α β : Type} (f : α → β) (d : α) (e : β) :
    ∀ (l : List α) (i : Nat), i < l.length → (l.map f).getD i e = f (l.getD i d) := by
  intro l
  induction l with
  | nil => intro i hi; exact absurd hi (by simp)
  | cons a l ih =>
    intro i hi
    cases i with
    | zero => rfl
    | succ i =>
      rw [List.map_cons, List.getD_cons_succ, List.getD_cons_succ]
      exact ih i (by simpa using hi)

/-- Shifting `getD` across `drop 1`. -/
lemma getD_drop_one : ∀ (rs : List (List CellValue)) (i : Nat),
    (rs.drop 1).getD i [] = rs.getD (i + 1) [] := by
  intro rs i
  cases rs with
  | nil => rw [List.drop_nil, List.getD_nil, List.getD_nil]
  | cons r rest => rw [List.drop_one, List.tail_cons, List.getD_cons_succ]

/-- On rows of padded width at least 4, the loop completes every row: each
list receives exactly the corresponding column of every row, in order, and
no `IndexError` occurs. -/
lemma barLoopAux_wide (w : Nat) (hw : 4 ≤ w) :
    ∀ rs : List (List CellValue),
      barLoopAux w rs =
        { names := rs.map (fun row => row.getD 0 CellValue.vEmpty),
          min_value := rs.map (fun row => row.getD 1 CellValue.vEmpty),
          mean_value := rs.map (fun row => row.getD 2 CellValue.vEmpty),
          max_value := rs.map (fun row => row.getD 3 CellValue.vEmpty),
          err := none } := by
  intro rs
  induction rs with
  | nil => rfl
  | cons row rest ih =>
    show barLoopAux w (row :: rest) = _
    simp only [barLoopAux]
    rw [if_neg (by omega : ¬ w < 1), if_neg (by omega : ¬ w < 2),
      if_neg (by omega : ¬ w < 3), if_neg (by omega : ¬ w < 4), ih]
    rfl

/-- C10 (amended): on every sheet whose padded width is at least 4 columns,
the extraction loop finishes without `IndexError`, the four lists all have
one element per scanned row (rows 2 to `max_row`), and element `i` of each
list comes from the same row `i + 2`, columns 1-4 respectively.  On narrower
sheets the loop aborts mid-row with the lists at unequal lengths:
`bar_loop_narrow_cex`. -/
theorem bar_loop_parallel (s : Sheet) (h : 4 ≤ sheetMaxColumn s) :
    (barLoop s).err = none ∧
    (barLoop s).names.length = numRows s - 1 ∧
    (barLoop s).min_value.length = numRows s - 1 ∧
    (barLoop s).mean_value.length = numRows s - 1 ∧
    (barLoop s).max_value.length = numRows s - 1 ∧
    ∀ i, i < numRows s - 1 →
      (barLoop s).names.getD i CellValue.vEmpty = cellAt s (i + 2) 1 ∧
      (barLoop s).min_value.getD i CellValue.vEmpty = cellAt s (i + 2) 2 ∧
      (barLoop s).mean_value.getD i CellValue.vEmpty = cellAt s (i + 2) 3 ∧
      (barLoop s).max_value.getD i CellValue.vEmpty = cellAt s (i + 2) 4 := by
  have hb := barLoopAux_wide (sheetMaxColumn s) h (s.rows.drop 1)
  rw [show barLoop s = barLoopAux (sheetMaxColumn s) (s.rows.drop 1) from rfl, hb]
  refine ⟨rfl, ?_, ?_, ?_, ?_, ?_⟩
  · rw [List.length_map, List.length_drop]; rfl
  · rw [List.length_map, List.length_drop]; rfl
  · rw [List.length_map, List.length_drop]; rfl
  · rw [List.length_map, List.length_drop]; rfl
  · intro i hi
    have hi' : i < (s.rows.drop 1).length := by
      rw [List.length_drop]
      exact hi
    refine ⟨?_, ?_, ?_, ?_⟩
    · rw [getD_map_lt (fun row => row.getD 0 CellValue.vEmpty) [] CellValue.vEmpty
        (s.rows.drop 1) i hi', getD_drop_one]
      rfl
    · rw [getD_map_lt (fun row => row.getD 1 CellValue.vEmpty) [] CellValue.vEmpty
        (s.rows.drop 1) i hi', getD_drop_one]
      rfl
    · rw [getD_map_lt (fun row => row.getD 2 CellValue.vEmpty) [] CellValue.vEmpty
        (s.rows.drop 1) i hi', getD_drop_one]
      rfl
    · rw [getD_map_lt (fun row => row.getD 3 CellValue.vEmpty) [] CellValue.vEmpty
        (s.rows.drop 1) i hi', getD_drop_one]
      rfl

/-- Witness for `bar_loop_parallel` on the four-column `sheetW10`. -/
theorem bar_loop_parallel_witness :
    (barLoop sheetW10).err = none ∧
    (barLoop sheetW10).names.length = numRows sheetW10 - 1 :=
  ⟨(bar_loop_parallel sheetW10 (by decide)).1,
   (bar_loop_parallel sheetW10 (by decide)).2.1⟩
